import Mathlib

/-!
Verification of the local authentication-state subsystem of the
`aa-passkey-wallet-demo` repository: the `SessionManager` (dual expiration
clocks), the `CredentialStore` (credential registry with an active-credential
pointer) and the `EncryptedStorageAdapter` (encryption at rest).

The TypeScript classes are shallowly embedded: epoch-millisecond times are
`Nat`, the singleton persisted session record is an `Option StoredSession`,
`async` methods become pure functions from the relevant persisted state (plus
the current time) to a result/state/event triple, and the registered
expiration callback is modelled by recording every invocation in an event
list.
-/

namespace AAWallet

/-- `SessionConfig` from `packages/passkey/src/types.ts`: the two clock
parameters, in milliseconds. -/
structure SessionConfig where
  maxSessionDuration : Nat
  inactivityTimeout : Nat
deriving Repr, DecidableEq

/-- `StoredSession` from `packages/passkey/src/types.ts`: the persisted
session record. -/
structure StoredSession where
  createdAt : Nat
  expiresAt : Nat
  lastActivity : Nat
  activeCredentialId : String
deriving Repr, DecidableEq

/-- `SessionState` from `packages/types/src/token.ts`: the derived read view
returned to callers (`expiresAt` and `activeCredentialId` are nullable in the
source, hence `Option`). -/
structure SessionState where
  isAuthenticated : Bool
  expiresAt : Option Nat
  activeCredentialId : Option String
  lastActivity : Nat
deriving Repr, DecidableEq

/-- The argument of a `SessionExpirationCallback`:
`(reason : "expired" | "inactivity") => void`. -/
inductive ExpirationReason where
  | expired
  | inactivity
deriving Repr, DecidableEq

namespace SessionManager

/-- `SessionManager.toSessionState`: build the derived view of a stored
session. -/
def toSessionState (session : StoredSession) : SessionState :=
  { isAuthenticated := true
    expiresAt := some session.expiresAt
    activeCredentialId := some session.activeCredentialId
    lastActivity := session.lastActivity }

/-- `SessionManager.endSession`: clears the timers (not modelled) and removes
the persisted session record. -/
def endSession (_store : Option StoredSession) : Option StoredSession :=
  none

/-- Outcome of a `SessionManager` read path: the value returned to the
caller, the persisted session record afterwards, and the expiration-callback
invocations made (in order). -/
structure GetSessionResult where
  result : Option SessionState
  store : Option StoredSession
  events : List ExpirationReason
deriving Repr, DecidableEq

/-- `SessionManager.getSession` (src/unnamed/part_001, lines 74-98): if no
record is stored return null; if `now > expiresAt` end the session, fire the
callback with `"expired"` and return null; else if
`now > lastActivity + inactivityTimeout` end the session, fire `"inactivity"`
and return null; otherwise return the derived view. -/
def getSession (cfg : SessionConfig) (store : Option StoredSession) (now : Nat) :
    GetSessionResult :=
  match store with
  | none => ⟨none, none, []⟩
  | some session =>
    if session.expiresAt < now then
      ⟨none, endSession store, [ExpirationReason.expired]⟩
    else if session.lastActivity + cfg.inactivityTimeout < now then
      ⟨none, endSession store, [ExpirationReason.inactivity]⟩
    else
      ⟨some (toSessionState session), some session, []⟩

/-- Outcome of `recordActivity`: the persisted session record afterwards and
the callback invocations made. -/
structure RecordActivityResult where
  store : Option StoredSession
  events : List ExpirationReason
deriving Repr, DecidableEq

/-- `SessionManager.recordActivity` (src/unnamed/part_001, lines 111-135):
no-op when no record is stored; if `now > expiresAt` end the session and fire
`"expired"`; otherwise persist the record with `lastActivity := now` (and
reset the inactivity timer, not modelled). The inactivity deadline is never
consulted here. -/
def recordActivity (store : Option StoredSession) (now : Nat) :
    RecordActivityResult :=
  match store with
  | none => ⟨none, []⟩
  | some session =>
    if session.expiresAt < now then
      ⟨endSession store, [ExpirationReason.expired]⟩
    else
      ⟨some { session with lastActivity := now }, []⟩

/-- `SessionManager.initialize` (src/unnamed/part_001, lines 159-181), named
`initSession` here because the source's method name is a command keyword in
Lean: validate a possibly pre-existing record against both deadlines, ending
the session when either has elapsed, and otherwise re-install the timers (not
modelled) and return the derived view. Note: unlike `getSession`, the source
ends the session WITHOUT invoking the expiration callback. -/
def initSession (cfg : SessionConfig) (store : Option StoredSession) (now : Nat) :
    GetSessionResult :=
  match store with
  | none => ⟨none, none, []⟩
  | some session =>
    if session.expiresAt < now then
      ⟨none, endSession store, []⟩
    else if session.lastActivity + cfg.inactivityTimeout < now then
      ⟨none, endSession store, []⟩
    else
      ⟨some (toSessionState session), some session, []⟩

end SessionManager

/-- `PasskeyCredential` from `packages/types/src/token.ts` (optional fields
are `Option`). -/
structure PasskeyCredential where
  id : String
  rawId : String
  publicKey : String
  algorithm : Int
  createdAt : Nat
  name : Option String
  aaguid : Option String
deriving Repr, DecidableEq

/-- The two persisted records a `CredentialStore` manipulates: the
`"passkey_credentials"` collection and the `"active_credential_id"` pointer,
each nullable because the backing `StorageAdapter.get` returns null for an
absent key. -/
structure CredentialStoreState where
  credentials : Option (List PasskeyCredential)
  activeCredentialId : Option String
deriving Repr, DecidableEq

namespace CredentialStore

/-- `CredentialStore.getAllCredentials`: read the collection, defaulting an
absent record to `[]` (`credentials ?? []`). -/
def getAllCredentials (st : CredentialStoreState) : List PasskeyCredential :=
  st.credentials.getD []

/-- The collection update inside `CredentialStore.saveCredential`:
`findIndex` by id, in-place assignment at the found index, else push. -/
def upsertById (credentials : List PasskeyCredential)
    (credential : PasskeyCredential) : List PasskeyCredential :=
  match credentials.findIdx? (fun c => c.id == credential.id) with
  | some i => credentials.set i credential
  | none => credentials ++ [credential]

/-- `CredentialStore.saveCredential`: read the whole collection, upsert by
id, persist the whole collection. -/
def saveCredential (st : CredentialStoreState) (credential : PasskeyCredential) :
    CredentialStoreState :=
  { st with credentials := some (upsertById (getAllCredentials st) credential) }

/-- `CredentialStore.getCredential`: first entry with the given id, else
null. -/
def getCredential (st : CredentialStoreState) (id : String) :
    Option PasskeyCredential :=
  (getAllCredentials st).find? (fun c => c.id == id)

/-- `CredentialStore.removeCredential`: filter the id out; if nothing was
removed return false and change nothing; otherwise persist the filtered
collection, then clear the active pointer when it equals the removed id, and
return true. -/
def removeCredential (st : CredentialStoreState) (id : String) :
    Bool × CredentialStoreState :=
  let credentials := getAllCredentials st
  let filtered := credentials.filter (fun c => !(c.id == id))
  if filtered.length = credentials.length then
    (false, st)
  else
    let st' := { st with credentials := some filtered }
    if st'.activeCredentialId = some id then
      (true, { st' with activeCredentialId := none })
    else
      (true, st')

/-- `CredentialStore.setActiveCredential`: store the pointer; deliberately no
check that the id exists in the collection. -/
def setActiveCredential (st : CredentialStoreState) (id : String) :
    CredentialStoreState :=
  { st with activeCredentialId := some id }

/-- `CredentialStore.getActiveCredentialId`. -/
def getActiveCredentialId (st : CredentialStoreState) : Option String :=
  st.activeCredentialId

/-- `CredentialStore.getActiveCredential`: read the pointer; `if (!id)`
treats both null and the empty string as absent; otherwise look the id up. -/
def getActiveCredential (st : CredentialStoreState) : Option PasskeyCredential :=
  match getActiveCredentialId st with
  | none => none
  | some id => if id = "" then none else getCredential st id

/-- `CredentialStore.clearActiveCredential`: remove the pointer record. -/
def clearActiveCredential (st : CredentialStoreState) : CredentialStoreState :=
  { st with activeCredentialId := none }

/-- `CredentialStore.hasCredentials`. -/
def hasCredentials (st : CredentialStoreState) : Bool :=
  decide ((getAllCredentials st).length > 0)

/-- `CredentialStore.clearAllCredentials`: remove the collection record and
clear the pointer. -/
def clearAllCredentials (_st : CredentialStoreState) : CredentialStoreState :=
  { credentials := none, activeCredentialId := none }

end CredentialStore

open CredentialStore in
/-- One mutating `CredentialStore` call, for reasoning about reachable
states. -/
inductive CredOp where
  | save (c : PasskeyCredential)
  | remove (id : String)
  | setActive (id : String)
  | clearActive
  | clearAll
deriving Repr

namespace CredentialStore

/-- Apply one mutating call to the persisted state. -/
def applyOp (st : CredentialStoreState) : CredOp → CredentialStoreState
  | CredOp.save c => saveCredential st c
  | CredOp.remove id => (removeCredential st id).2
  | CredOp.setActive id => setActiveCredential st id
  | CredOp.clearActive => clearActiveCredential st
  | CredOp.clearAll => clearAllCredentials st

/-- Run a sequence of mutating calls. -/
def runOps (st : CredentialStoreState) (ops : List CredOp) : CredentialStoreState :=
  ops.foldl applyOp st

/-- The state of a fresh backing store: both records absent. -/
def initialState : CredentialStoreState := ⟨none, none⟩

/-- The referential-integrity invariant of the spec: a non-null active
pointer references a credential present in the collection. -/
def activeRefInvariant (st : CredentialStoreState) : Bool :=
  match st.activeCredentialId with
  | none => true
  | some a => (getAllCredentials st).any (fun c => c.id == a)

/-- Guard on a single call: a `setActiveCredential id` may only happen while
a credential with that id is present; every other call is unrestricted. -/
def opGuard (st : CredentialStoreState) : CredOp → Bool
  | CredOp.setActive id => (getAllCredentials st).any (fun c => c.id == id)
  | _ => true

/-- Guard for a sequence of calls: every `setActiveCredential id` happens
while a credential with that id is present. -/
def validOps (st : CredentialStoreState) : List CredOp → Bool
  | [] => true
  | op :: rest => opGuard st op && validOps (applyOp st op) rest

end CredentialStore

/-- Structurally serializable values — the domain of `JSON.stringify` /
`JSON.parse` as this subsystem uses them (no cyclic graphs). -/
inductive JValue where
  | jNull
  | jBool (b : Bool)
  | jNum (n : Int)
  | jStr (s : String)
  | jArr (items : List JValue)
  | jObj (fields : List (String × JValue))

/-- Modelled from the spec: the plaintext byte strings flowing through the
crypto layer. `JSON.stringify` / `stringToUint8Array` (platform
collaborators, not code of this repository) produce "the UTF-8 text form of
a structural serialization" — a canonical injective encoding — so a byte
string is either the canonical encoding of some value or some other byte
string that decodes to nothing. -/
inductive PlainBytes where
  | encoded (v : JValue)
  | raw (data : List Nat)

/-- Modelled from the spec: `JSON.stringify` followed by
`stringToUint8Array`, the canonical byte encoding of a serializable
value. -/
def serialize (v : JValue) : PlainBytes :=
  PlainBytes.encoded v

/-- Modelled from the spec: `uint8ArrayToString` followed by `JSON.parse`,
the partial inverse of `serialize`; it fails on bytes that are not a
canonical encoding (the deserialization error the source's try/catch
absorbs). -/
def deserialize : PlainBytes → Option JValue
  | PlainBytes.encoded v => some v
  | PlainBytes.raw _ => none

/-- Modelled from the spec: the PBKDF2-derived 256-bit AES key is determined
by the supplied secret and the record's salt alone (`deriveKey` in
`packages/passkey/src/storage/crypto.ts` calls platform PBKDF2 with fixed
iteration count and hash), and distinct secret/salt pairs give distinct
keys. Random salt and IV values are modelled as `Nat` tokens supplied by the
caller in place of the secure random source. -/
structure DerivedKey where
  secret : String
  salt : Nat
deriving Repr, DecidableEq

namespace WebCryptoAdapter

/-- Modelled from the spec: an AES-GCM ciphertext, kept symbolic as the
authenticated encryption of its plaintext under a key and IV. Decryption
recovers the plaintext exactly when key and IV match and fails otherwise —
"fails on authentication-tag mismatch, malformed encoding, or wrong secret",
the three causes being indistinguishable. -/
structure AEADCiphertext where
  key : DerivedKey
  iv : Nat
  plaintext : PlainBytes

/-- `deriveKey` of `packages/passkey/src/storage/crypto.ts`, over the
modelled PBKDF2. -/
def deriveKey (password : String) (salt : Nat) : DerivedKey :=
  ⟨password, salt⟩

/-- Modelled from the spec: `crypto.subtle.encrypt` with AES-GCM. -/
def aeadEncrypt (key : DerivedKey) (iv : Nat) (data : PlainBytes) :
    AEADCiphertext :=
  ⟨key, iv, data⟩

/-- Modelled from the spec: `crypto.subtle.decrypt` with AES-GCM; the
platform call throws on authentication failure, embedded here as `none`. -/
def aeadDecrypt (key : DerivedKey) (iv : Nat) (ct : AEADCiphertext) :
    Option PlainBytes :=
  if ct.key = key ∧ ct.iv = iv then some ct.plaintext else none

end WebCryptoAdapter

/-- `EncryptedData` from `packages/passkey/src/types.ts`: ciphertext, IV and
salt. The base64 text encodings of the three components are faithful
transparent wrappers and are omitted. -/
structure EncryptedData where
  ciphertext : WebCryptoAdapter.AEADCiphertext
  iv : Nat
  salt : Nat

namespace WebCryptoAdapter

/-- `WebCryptoAdapter.encrypt`: generate fresh salt and IV (passed in as the
`salt`/`iv` arguments since randomness is an external source), derive the
key from the secret and salt, AEAD-encrypt, and bundle ciphertext, IV and
salt. -/
def encrypt (data : PlainBytes) (secret : String) (salt iv : Nat) :
    EncryptedData :=
  let key := deriveKey secret salt
  { ciphertext := aeadEncrypt key iv data, iv := iv, salt := salt }

/-- `WebCryptoAdapter.decrypt`: re-derive the key from the record's own salt
and the supplied secret, then authenticate-decrypt with the record's IV. -/
def decrypt (encrypted : EncryptedData) (secret : String) :
    Option PlainBytes :=
  let key := deriveKey secret encrypted.salt
  aeadDecrypt key encrypted.iv encrypted.ciphertext

end WebCryptoAdapter

/-- The inner `StorageAdapter` under an `EncryptedStorageAdapter`: a plain
key/value store of `EncryptedData` records. -/
def InnerStorage := String → Option EncryptedData

namespace EncryptedStorageAdapter

/-- `EncryptedStorageAdapter.set`: obtain the secret from the provider (one
invocation, passed here as `secret`), serialize the value, encrypt with
fresh salt/IV, and store the record under the key. -/
def set (st : InnerStorage) (key : String) (value : JValue) (secret : String)
    (salt iv : Nat) : InnerStorage :=
  fun k =>
    if k = key then
      some (WebCryptoAdapter.encrypt (serialize value) secret salt iv)
    else st k

/-- `EncryptedStorageAdapter.get`: an absent record is null; otherwise
obtain the secret, decrypt and deserialize, collapsing every failure to null
(the source's `try ... catch ... return null`). -/
def get (st : InnerStorage) (key : String) (secret : String) : Option JValue :=
  match st key with
  | none => none
  | some encrypted =>
    match WebCryptoAdapter.decrypt encrypted secret with
    | none => none
    | some decrypted => deserialize decrypted

end EncryptedStorageAdapter

end AAWallet

namespace AAWallet

open SessionManager CredentialStore

/-- C1: for every stored session and current time `now`, `getSession` returns
the derived session view iff `now ≤ expiresAt` and
`now ≤ lastActivity + inactivityTimeout`; otherwise it ends the session and
returns null, and in particular when `now ≤ expiresAt` but the inactivity
deadline has elapsed it returns null with reason `"inactivity"`. -/
theorem getSession_dual_deadline (cfg : SessionConfig) (s : StoredSession)
    (now : Nat) :
    ((getSession cfg (some s) now).result ≠ none ↔
      now ≤ s.expiresAt ∧ now ≤ s.lastActivity + cfg.inactivityTimeout)
    ∧ ((getSession cfg (some s) now).result ≠ none →
        (getSession cfg (some s) now).result = some (toSessionState s))
    ∧ ((getSession cfg (some s) now).result = none →
        (getSession cfg (some s) now).store = none)
    ∧ (now ≤ s.expiresAt → s.lastActivity + cfg.inactivityTimeout < now →
        getSession cfg (some s) now = ⟨none, none, [ExpirationReason.inactivity]⟩) := by
  by_cases h1 : s.expiresAt < now <;>
    by_cases h2 : s.lastActivity + cfg.inactivityTimeout < now <;>
      simp [getSession, endSession, h1, h2] <;> omega

/-- Witness for C1 at the configured defaults: reading a fresh session one
minute in returns the derived view. -/
theorem getSession_dual_deadline_witness :
    (getSession ⟨1800000, 300000⟩ (some ⟨0, 1800000, 0, "cred-1"⟩) 60000).result
      = some (toSessionState ⟨0, 1800000, 0, "cred-1"⟩) :=
  (getSession_dual_deadline ⟨1800000, 300000⟩ ⟨0, 1800000, 0, "cred-1"⟩ 60000).2.1
    (by decide)

/-- C2: whenever `now > expiresAt`, `getSession` returns null, ends the
session and invokes the callback with `"expired"` — regardless of how recent
`lastActivity` is, so the absolute deadline (checked first) takes precedence
over `"inactivity"`. -/
theorem getSession_expired_dominates (cfg : SessionConfig) (s : StoredSession)
    (now : Nat) (h : s.expiresAt < now) :
    getSession cfg (some s) now = ⟨none, none, [ExpirationReason.expired]⟩ := by
  simp [getSession, endSession, h]

/-- Witness for C2: both deadlines have elapsed (`lastActivity` is as old as
the session) yet the reason is `"expired"`, not `"inactivity"`. -/
theorem getSession_expired_dominates_witness :
    getSession ⟨1800000, 300000⟩ (some ⟨0, 1800000, 0, "cred-1"⟩) 1800001
      = ⟨none, none, [ExpirationReason.expired]⟩ :=
  getSession_expired_dominates ⟨1800000, 300000⟩ ⟨0, 1800000, 0, "cred-1"⟩ 1800001
    (by decide)

/-- C5: calling `recordActivity` when `now > expiresAt` ends the session and
fires the callback with `"expired"` (never `"inactivity"`); the record is
deleted, so no session field — in particular `lastActivity` — is updated: an
absolutely expired session cannot be resurrected by activity. -/
theorem recordActivity_expired (s : StoredSession) (now : Nat)
    (h : s.expiresAt < now) :
    recordActivity (some s) now = ⟨none, [ExpirationReason.expired]⟩ := by
  simp [recordActivity, endSession, h]

/-- Witness for C5: activity one millisecond after the absolute deadline ends
the session with `"expired"`. -/
theorem recordActivity_expired_witness :
    recordActivity (some ⟨0, 1800000, 1799999, "cred-1"⟩) 1800001
      = ⟨none, [ExpirationReason.expired]⟩ :=
  recordActivity_expired ⟨0, 1800000, 1799999, "cred-1"⟩ 1800001 (by decide)

/-- C8 counterexample: on a session whose absolute deadline has elapsed, the
cold-start read DOES end the session and return null, but it does NOT invoke
the expiration callback — its event list is empty rather than `["expired"]`,
contradicting the claim that it fires the callback with the corresponding
reason. -/
theorem initSession_no_callback_cex :
    (initSession ⟨1800000, 300000⟩ (some ⟨0, 10, 0, "cred-1"⟩) 11).result = none
    ∧ (initSession ⟨1800000, 300000⟩ (some ⟨0, 10, 0, "cred-1"⟩) 11).store = none
    ∧ (initSession ⟨1800000, 300000⟩ (some ⟨0, 10, 0, "cred-1"⟩) 11).events = []
    ∧ (getSession ⟨1800000, 300000⟩ (some ⟨0, 10, 0, "cred-1"⟩) 11).events
        = [ExpirationReason.expired] := by
  decide

/-- C8 (amended): the cold-start read performs exactly the same dual-deadline
validation as `getSession` — the returned value and the resulting persisted
state agree with `getSession` on every store and time — but it never invokes
the expiration callback. -/
theorem initSession_same_validation (cfg : SessionConfig)
    (store : Option StoredSession) (now : Nat) :
    (initSession cfg store now).result = (getSession cfg store now).result
    ∧ (initSession cfg store now).store = (getSession cfg store now).store
    ∧ (initSession cfg store now).events = [] := by
  match store with
  | none => simp [initSession, getSession]
  | some s =>
    by_cases h1 : s.expiresAt < now <;>
      by_cases h2 : s.lastActivity + cfg.inactivityTimeout < now <;>
        simp [initSession, getSession, endSession, h1, h2]

/-- C10: when the inactivity deadline has elapsed but the absolute one has
not, `recordActivity` does not end the session and fires no callback; it
persists the record with `lastActivity := now`, after which `getSession` at
the same instant returns a non-null view — the lapsed inactivity window is
silently revived. -/
theorem recordActivity_revives_inactive (cfg : SessionConfig)
    (s : StoredSession) (now : Nat) (h1 : now ≤ s.expiresAt)
    (h2 : s.lastActivity + cfg.inactivityTimeout < now) :
    recordActivity (some s) now = ⟨some { s with lastActivity := now }, []⟩
    ∧ (getSession cfg (some { s with lastActivity := now }) now).result
        = some (toSessionState { s with lastActivity := now }) := by
  constructor
  · simp [recordActivity, endSession]
    omega
  · have hx : ¬s.expiresAt < now := by omega
    simp [getSession, endSession, hx]

/-- Witness for C10: with the default 5-minute window, activity at
`t = 300001` (one millisecond past the inactivity deadline of a session idle
since `t = 0`) revives the session. -/
theorem recordActivity_revives_inactive_witness :
    recordActivity (some ⟨0, 1800000, 0, "cred-1"⟩) 300001
      = ⟨some ⟨0, 1800000, 300001, "cred-1"⟩, []⟩
    ∧ (getSession ⟨1800000, 300000⟩ (some ⟨0, 1800000, 300001, "cred-1"⟩) 300001).result
        = some (toSessionState ⟨0, 1800000, 300001, "cred-1"⟩) :=
  recordActivity_revives_inactive ⟨1800000, 300000⟩ ⟨0, 1800000, 0, "cred-1"⟩ 300001
    (by decide) (by decide)

/-- An upsert never loses an id already present in the collection. -/
theorem any_id_upsertById (l : List PasskeyCredential) (c : PasskeyCredential)
    (a : String) (h : l.any (fun x => x.id == a) = true) :
    (upsertById l c).any (fun x => x.id == a) = true := by
  induction l with
  | nil => simp at h
  | cons hd tl ih =>
    unfold upsertById
    rw [List.findIdx?_cons]
    by_cases hhd : (hd.id == c.id) = true
    · rw [if_pos hhd]
      simp only [List.set_cons_zero, List.any_cons, Bool.or_eq_true]
      simp only [List.any_cons, Bool.or_eq_true] at h
      cases h with
      | inl h1 =>
        left
        have e1 : hd.id = c.id := by simpa using hhd
        have e2 : hd.id = a := by simpa using h1
        simp [← e1, e2]
      | inr h2 => right; exact h2
    · rw [if_neg hhd, List.findIdx?_succ]
      simp only [List.any_cons, Bool.or_eq_true] at h
      cases hf : tl.findIdx? (fun x => x.id == c.id) with
      | some i =>
        simp only [Option.map_some', List.set_cons_succ, List.any_cons,
          Bool.or_eq_true]
        cases h with
        | inl h1 => left; exact h1
        | inr h2 =>
          right
          have := ih h2
          rwa [upsertById, hf] at this
      | none =>
        simp only [Option.map_none', List.cons_append, List.any_cons,
          Bool.or_eq_true]
        cases h with
        | inl h1 => left; exact h1
        | inr h2 =>
          right
          have := ih h2
          rwa [upsertById, hf] at this

/-- Each guarded mutating call preserves the referential-integrity
invariant. -/
theorem activeRefInvariant_applyOp (st : CredentialStoreState) (op : CredOp)
    (hinv : activeRefInvariant st = true) (hok : opGuard st op = true) :
    activeRefInvariant (applyOp st op) = true := by
  cases op with
  | save c =>
    show activeRefInvariant (saveCredential st c) = true
    unfold activeRefInvariant at hinv ⊢
    cases hA : st.activeCredentialId with
    | none => simp [saveCredential, hA]
    | some a =>
      rw [hA] at hinv
      have hcoll :
          getAllCredentials (saveCredential st c)
            = upsertById (getAllCredentials st) c := rfl
      have hptr : (saveCredential st c).activeCredentialId
            = st.activeCredentialId := rfl
      rw [hptr, hA, hcoll]
      exact any_id_upsertById _ _ _ hinv
  | remove id =>
    show activeRefInvariant (removeCredential st id).2 = true
    unfold removeCredential
    by_cases hlen :
        ((getAllCredentials st).filter (fun c => !(c.id == id))).length
          = (getAllCredentials st).length
    · simpa [hlen] using hinv
    · simp only [hlen, if_false, reduceIte]
      by_cases hact : st.activeCredentialId = some id
      · simp [hact, activeRefInvariant]
      · simp only [hact, reduceIte]
        unfold activeRefInvariant at hinv ⊢
        cases hA : st.activeCredentialId with
        | none => simp
        | some a =>
          rw [hA] at hinv
          simp only
          rw [List.any_eq_true] at hinv ⊢
          obtain ⟨x, hx, hxa⟩ := hinv
          refine ⟨x, ?_, hxa⟩
          have hxid : x.id ≠ id := by
            intro hcon
            have ha : x.id = a := by simpa using hxa
            rw [hA] at hact
            exact hact (by rw [← ha, hcon])
          exact List.mem_filter.mpr ⟨hx, by simp [hxid]⟩
  | setActive id =>
    show activeRefInvariant (setActiveCredential st id) = true
    unfold activeRefInvariant setActiveCredential
    simpa [opGuard] using hok
  | clearActive =>
    show activeRefInvariant (clearActiveCredential st) = true
    simp [activeRefInvariant, clearActiveCredential]
  | clearAll =>
    show activeRefInvariant (clearAllCredentials st) = true
    simp [activeRefInvariant, clearAllCredentials]

/-- C6 counterexample: `setActiveCredential` does not validate its argument,
so from a fresh store one single operation reaches a persisted state whose
active pointer is non-null while the credentials collection is empty — the
claimed invariant is violated on a reachable state. -/
theorem setActive_unvalidated_cex :
    (runOps initialState [CredOp.setActive "cred-1"]).activeCredentialId
        = some "cred-1"
    ∧ getAllCredentials (runOps initialState [CredOp.setActive "cred-1"]) = []
    ∧ activeRefInvariant (runOps initialState [CredOp.setActive "cred-1"])
        = false := by
  decide

/-- C6 (amended): the referential-integrity invariant holds for every state
reached by a sequence of mutating operations in which each
`setActiveCredential id` call is made only while a credential with that id is
present (every operation except an unguarded `setActiveCredential` preserves
it unconditionally). -/
theorem activeRefInvariant_guarded_runOps (ops : List CredOp) :
    ∀ st : CredentialStoreState, activeRefInvariant st = true →
      validOps st ops = true → activeRefInvariant (runOps st ops) = true := by
  induction ops with
  | nil =>
    intro st h _
    simpa [runOps] using h
  | cons op rest ih =>
    intro st h hv
    have hv' : (opGuard st op && validOps (applyOp st op) rest) = true := hv
    rw [Bool.and_eq_true] at hv'
    have hstep := activeRefInvariant_applyOp st op h hv'.1
    have hrun : runOps st (op :: rest) = runOps (applyOp st op) rest := rfl
    rw [hrun]
    exact ih (applyOp st op) hstep hv'.2

/-- Witness for the amended C6: saving a credential, activating it, then
removing it again keeps the invariant (the removal clears the pointer). -/
theorem activeRefInvariant_guarded_runOps_witness :
    activeRefInvariant (runOps initialState
      [CredOp.save ⟨"cred-1", "raw", "pk", -7, 0, none, none⟩,
       CredOp.setActive "cred-1", CredOp.remove "cred-1"]) = true :=
  activeRefInvariant_guarded_runOps _ initialState (by decide) (by decide)

/-- C7: removing the credential the active pointer references removes it
from the collection, clears the pointer within the same operation and
returns true, after which `getActiveCredential` is null; removing an id with
no matching credential returns false and leaves both the collection and the
pointer untouched. -/
theorem removeCredential_spec (st : CredentialStoreState) (id : String) :
    ((getAllCredentials st).any (fun c => c.id == id) = false →
        removeCredential st id = (false, st))
    ∧ ((getAllCredentials st).any (fun c => c.id == id) = true →
        (removeCredential st id).1 = true
        ∧ (getAllCredentials (removeCredential st id).2).any
            (fun c => c.id == id) = false
        ∧ (st.activeCredentialId = some id →
            (removeCredential st id).2.activeCredentialId = none
            ∧ getActiveCredential (removeCredential st id).2 = none)) := by
  constructor
  · intro h
    have hfe : (getAllCredentials st).filter (fun c => !(c.id == id))
        = getAllCredentials st := by
      apply List.filter_eq_self.mpr
      intro a ha
      have := List.any_eq_false.mp h a ha
      simpa using this
    simp only [removeCredential]
    rw [hfe]
    simp
  · intro h
    obtain ⟨x, hx, hpx⟩ := List.any_eq_true.mp h
    have hne : ((getAllCredentials st).filter (fun c => !(c.id == id))).length
        ≠ (getAllCredentials st).length := by
      intro heq
      have hfe :=
        (List.filter_sublist (getAllCredentials st)
          (p := fun c => !(c.id == id))).eq_of_length heq
      have hx' : x ∈ (getAllCredentials st).filter (fun c => !(c.id == id)) := by
        rw [hfe]; exact hx
      have := (List.mem_filter.mp hx').2
      simp [hpx] at this
    have hfilter : ((getAllCredentials st).filter
        (fun c => !(c.id == id))).any (fun c => c.id == id) = false := by
      rw [List.any_eq_false]
      intro y hy
      have := (List.mem_filter.mp hy).2
      simpa using this
    refine ⟨?_, ?_, ?_⟩
    · simp only [removeCredential]
      rw [if_neg hne]
      split <;> rfl
    · simp only [removeCredential]
      rw [if_neg hne]
      split <;> simpa [getAllCredentials] using hfilter
    · intro hact
      simp only [removeCredential]
      rw [if_neg hne]
      simp only [hact, reduceIte]
      exact ⟨trivial, rfl⟩

/-- Witness for C7: on a store holding exactly the active credential,
removal returns true, clears the pointer, and a dangling id returns false
and changes nothing. -/
theorem removeCredential_spec_witness :
    (removeCredential ⟨some [⟨"cred-1", "raw", "pk", -7, 0, none, none⟩],
        some "cred-1"⟩ "cred-1").1 = true
    ∧ (removeCredential ⟨some [⟨"cred-1", "raw", "pk", -7, 0, none, none⟩],
        some "cred-1"⟩ "cred-1").2.activeCredentialId = none
    ∧ getActiveCredential (removeCredential
        ⟨some [⟨"cred-1", "raw", "pk", -7, 0, none, none⟩],
          some "cred-1"⟩ "cred-1").2 = none
    ∧ removeCredential ⟨some [⟨"cred-1", "raw", "pk", -7, 0, none, none⟩],
        some "cred-1"⟩ "missing"
      = (false, ⟨some [⟨"cred-1", "raw", "pk", -7, 0, none, none⟩],
          some "cred-1"⟩) := by
  have h1 := removeCredential_spec
    ⟨some [⟨"cred-1", "raw", "pk", -7, 0, none, none⟩], some "cred-1"⟩ "cred-1"
  have h2 := removeCredential_spec
    ⟨some [⟨"cred-1", "raw", "pk", -7, 0, none, none⟩], some "cred-1"⟩ "missing"
  exact ⟨(h1.2 (by decide)).1,
    ((h1.2 (by decide)).2.2 (by decide)).1,
    ((h1.2 (by decide)).2.2 (by decide)).2,
    h2.1 (by decide)⟩

/-- After replacing the entry at the index `findIndex` located, the same
index is still the first to carry the saved credential's id. -/
theorem upsert_findIdx_set (l : List PasskeyCredential) (c : PasskeyCredential)
    (i : Nat) (hf : l.findIdx? (fun x => x.id == c.id) = some i) :
    (l.set i c).findIdx? (fun x => x.id == c.id) = some i := by
  obtain ⟨hi, hpi, hlt⟩ := List.findIdx?_eq_some_iff_getElem.mp hf
  apply List.findIdx?_eq_some_iff_getElem.mpr
  refine ⟨by simpa using hi, ?_, ?_⟩
  · rw [List.getElem_set_self]
    simp
  · intro j hj
    rw [List.getElem_set_ne (by omega)]
    exact hlt j hj

/-- After pushing the credential onto a collection with no entry of its id,
the pushed position is the first to carry that id. -/
theorem upsert_findIdx_append (l : List PasskeyCredential)
    (c : PasskeyCredential)
    (hf : l.findIdx? (fun x => x.id == c.id) = none) :
    (l ++ [c]).findIdx? (fun x => x.id == c.id) = some l.length := by
  apply List.findIdx?_eq_some_iff_getElem.mpr
  refine ⟨by simp, ?_, ?_⟩
  · rw [List.getElem_concat_length l c l.length rfl]
    simp
  · intro j hj
    rw [List.getElem_append_left (by omega)]
    have hnone := List.findIdx?_eq_none_iff.mp hf
    simpa using hnone _ (List.getElem_mem _)

/-- Writing the pushed credential back over itself changes nothing. -/
theorem upsert_append_set (l : List PasskeyCredential) (c : PasskeyCredential) :
    (l ++ [c]).set l.length c = l ++ [c] := by
  apply List.ext_getElem?
  intro n
  by_cases hn : n = l.length
  · subst hn
    rw [List.getElem?_set_self (by simp),
      List.getElem?_eq_getElem (by simp : l.length < (l ++ [c]).length),
      List.getElem_concat_length l c l.length rfl]
  · rw [List.getElem?_set_ne (fun hcon => hn hcon.symm)]

/-- Upserting the same credential twice equals upserting it once. -/
theorem upsertById_idem (l : List PasskeyCredential) (c : PasskeyCredential) :
    upsertById (upsertById l c) c = upsertById l c := by
  cases hf : l.findIdx? (fun x => x.id == c.id) with
  | some i =>
    have h1 : upsertById l c = l.set i c := by unfold upsertById; rw [hf]
    rw [h1]
    unfold upsertById
    rw [upsert_findIdx_set l c i hf]
    exact List.set_set c c l i
  | none =>
    have h1 : upsertById l c = l ++ [c] := by unfold upsertById; rw [hf]
    rw [h1]
    unfold upsertById
    rw [upsert_findIdx_append l c hf]
    exact upsert_append_set l c

/-- C9: saving a credential whose id is already present replaces the found
entry in place — the collection keeps its length and every other position
keeps its value — while a new id is appended after the unchanged entries;
consequently saving the same credential twice equals saving it once. -/
theorem saveCredential_upsert (st : CredentialStoreState)
    (c : PasskeyCredential) :
    (∀ i, (getAllCredentials st).findIdx? (fun x => x.id == c.id) = some i →
        (getAllCredentials (saveCredential st c)).length
            = (getAllCredentials st).length
        ∧ (getAllCredentials (saveCredential st c))[i]? = some c
        ∧ ∀ j, j ≠ i →
            (getAllCredentials (saveCredential st c))[j]?
              = (getAllCredentials st)[j]?)
    ∧ ((getAllCredentials st).findIdx? (fun x => x.id == c.id) = none →
        getAllCredentials (saveCredential st c) = getAllCredentials st ++ [c])
    ∧ saveCredential (saveCredential st c) c = saveCredential st c := by
  have hcoll : getAllCredentials (saveCredential st c)
      = upsertById (getAllCredentials st) c := rfl
  refine ⟨?_, ?_, ?_⟩
  · intro i hf
    obtain ⟨hi, hpi, hlt⟩ := List.findIdx?_eq_some_iff_getElem.mp hf
    rw [hcoll]
    unfold upsertById
    rw [hf]
    refine ⟨by simp, ?_, ?_⟩
    · rw [List.getElem?_set_self hi]
    · intro j hj
      rw [List.getElem?_set_ne (fun hcon => hj hcon.symm)]
  · intro hf
    rw [hcoll]
    unfold upsertById
    rw [hf]
  · show ({ saveCredential st c with
        credentials := some (upsertById (getAllCredentials (saveCredential st c)) c) }
          : CredentialStoreState)
      = { st with credentials := some (upsertById (getAllCredentials st) c) }
    rw [hcoll]
    simp [saveCredential, upsertById_idem]

/-- Witness for C9: saving the same credential twice on a fresh store equals
saving it once, and re-saving keeps the collection length. -/
theorem saveCredential_upsert_witness :
    (getAllCredentials (saveCredential
        (saveCredential initialState ⟨"cred-1", "raw", "pk", -7, 0, none, none⟩)
        ⟨"cred-1", "raw", "pk", -7, 0, none, none⟩)).length
      = (getAllCredentials (saveCredential initialState
          ⟨"cred-1", "raw", "pk", -7, 0, none, none⟩)).length
    ∧ saveCredential
        (saveCredential initialState ⟨"cred-1", "raw", "pk", -7, 0, none, none⟩)
        ⟨"cred-1", "raw", "pk", -7, 0, none, none⟩
      = saveCredential initialState ⟨"cred-1", "raw", "pk", -7, 0, none, none⟩ :=
  ⟨((saveCredential_upsert
      (saveCredential initialState ⟨"cred-1", "raw", "pk", -7, 0, none, none⟩)
      ⟨"cred-1", "raw", "pk", -7, 0, none, none⟩).1 0 (by decide)).1,
   (saveCredential_upsert initialState
      ⟨"cred-1", "raw", "pk", -7, 0, none, none⟩).2.2⟩

/-- C3: decrypting the record produced by encrypting a serializable value
under a secret, with the same secret, recovers the value's encoding; hence a
`get` after a `set` under an unchanged secret provider returns the value. -/
theorem encrypted_store_roundtrip (v : JValue) (secret : String)
    (salt iv : Nat) (st : InnerStorage) (key : String) :
    WebCryptoAdapter.decrypt
        (WebCryptoAdapter.encrypt (serialize v) secret salt iv) secret
      = some (serialize v)
    ∧ EncryptedStorageAdapter.get
        (EncryptedStorageAdapter.set st key v secret salt iv) key secret
      = some v := by
  constructor
  · simp [WebCryptoAdapter.decrypt, WebCryptoAdapter.encrypt,
      WebCryptoAdapter.aeadDecrypt, WebCryptoAdapter.aeadEncrypt,
      WebCryptoAdapter.deriveKey]
  · simp [EncryptedStorageAdapter.get, EncryptedStorageAdapter.set,
      WebCryptoAdapter.decrypt, WebCryptoAdapter.encrypt,
      WebCryptoAdapter.aeadDecrypt, WebCryptoAdapter.aeadEncrypt,
      WebCryptoAdapter.deriveKey, serialize, deserialize]

/-- C4: `get` never throws — an absent record is null; after a `set` under
secret `s1`, a `get` under a different secret `s2` is null; a record whose
decryption fails (tampering, malformed encoding) is null; and a record that
decrypts to bytes that are not a canonical encoding (deserialization error)
is null. -/
theorem encrypted_get_fail_closed (st : InnerStorage) (key : String)
    (secret : String) :
    (st key = none → EncryptedStorageAdapter.get st key secret = none)
    ∧ (∀ (v : JValue) (s1 s2 : String) (salt iv : Nat), s1 ≠ s2 →
        EncryptedStorageAdapter.get
          (EncryptedStorageAdapter.set st key v s1 salt iv) key s2 = none)
    ∧ (∀ encrypted, st key = some encrypted →
        WebCryptoAdapter.decrypt encrypted secret = none →
        EncryptedStorageAdapter.get st key secret = none)
    ∧ (∀ (data : List Nat) (salt iv : Nat),
        EncryptedStorageAdapter.get
          (fun k =>
            if k = key then
              some (WebCryptoAdapter.encrypt (PlainBytes.raw data) secret salt iv)
            else st k) key secret = none) := by
  refine ⟨?_, ?_, ?_, ?_⟩
  · intro h
    simp [EncryptedStorageAdapter.get, h]
  · intro v s1 s2 salt iv hne
    simp [EncryptedStorageAdapter.get, EncryptedStorageAdapter.set,
      WebCryptoAdapter.decrypt, WebCryptoAdapter.encrypt,
      WebCryptoAdapter.aeadDecrypt, WebCryptoAdapter.aeadEncrypt,
      WebCryptoAdapter.deriveKey, DerivedKey.mk.injEq]
    rw [if_neg hne]
  · intro encrypted he hd
    simp [EncryptedStorageAdapter.get, he, hd]
  · intro data salt iv
    simp [EncryptedStorageAdapter.get, WebCryptoAdapter.decrypt,
      WebCryptoAdapter.encrypt, WebCryptoAdapter.aeadDecrypt,
      WebCryptoAdapter.aeadEncrypt, WebCryptoAdapter.deriveKey, deserialize]

/-- Witness for C4: an empty store yields null, and a value stored under
secret `"s1"` read back under `"s2"` yields null rather than an error. -/
theorem encrypted_get_fail_closed_witness :
    EncryptedStorageAdapter.get (fun _ => none) "credentials" "s1" = none
    ∧ EncryptedStorageAdapter.get
        (EncryptedStorageAdapter.set (fun _ => none) "credentials"
          JValue.jNull "s1" 0 1) "credentials" "s2" = none :=
  ⟨(encrypted_get_fail_closed (fun _ => none) "credentials" "s1").1 rfl,
   (encrypted_get_fail_closed (fun _ => none) "credentials" "s2").2.1
      JValue.jNull "s1" "s2" 0 1 (by decide)⟩

end AAWallet
